import Mathlib

/-!
Verification of the libpqxx core headers `util.hxx` and `result.hxx`.

Machine integers are embedded as mathematical integers together with a
bit width; all wrap-around is made explicit with `% 2 ^ w`.  Fallible
C++ functions (those that `throw`) are embedded as `Except String` or
`Except PqError` values, where the error payload is the exception's
message.
-/

namespace Pqxx

instance {ε α : Type} [DecidableEq ε] [DecidableEq α] :
    DecidableEq (Except ε α) := fun x y =>
  match x, y with
  | .ok a, .ok b =>
      if h : a = b then .isTrue (congrArg Except.ok h)
      else .isFalse (fun hc => h (Except.ok.inj hc))
  | .error a, .error b =>
      if h : a = b then .isTrue (congrArg Except.error h)
      else .isFalse (fun hc => h (Except.error.inj hc))
  | .ok _, .error _ => .isFalse (fun hc => Except.noConfusion hc)
  | .error _, .ok _ => .isFalse (fun hc => Except.noConfusion hc)

/-- A C++ integral type other than `bool`: a signedness flag and a bit
width.  Two's-complement representation is assumed, as libpqxx does. -/
structure IntTy where
  signed : Bool
  bits : Nat
deriving DecidableEq

/-- `std::numeric_limits<T>::max()` for an integral type. -/
def IntTy.max (t : IntTy) : Int :=
  if t.signed then 2 ^ (t.bits - 1) - 1 else 2 ^ t.bits - 1

/-- `std::numeric_limits<T>::lowest()` for an integral type. -/
def IntTy.min (t : IntTy) : Int :=
  if t.signed then -(2 ^ (t.bits - 1)) else 0

/-- `v` is a value of type `t`. -/
def IntTy.mem (t : IntTy) (v : Int) : Prop := t.min ≤ v ∧ v ≤ t.max

instance (t : IntTy) (v : Int) : Decidable (t.mem v) := by
  unfold IntTy.mem; infer_instance

/-- `static_cast<unsigned_T>(v)` where `unsigned_T` has `w` bits:
reduction modulo `2 ^ w`, yielding a natural number below `2 ^ w`. -/
def toUnsigned (w : Nat) (v : Int) : Nat := (v % (2 ^ w : Int)).toNat

/-- `static_cast<T>(v)` for an integral type `t`: reduce modulo
`2 ^ t.bits`, then reinterpret the top bit as the sign when `t` is
signed. -/
def static_cast (t : IntTy) (v : Int) : Int :=
  let m : Int := v % (2 ^ t.bits : Int)
  if t.signed ∧ 2 ^ (t.bits - 1) ≤ m then m - 2 ^ t.bits else m

/-- The `FROM` template argument of `check_cast`: either `bool` or a
non-`bool` integral type.  (`util.hxx` line 88 singles `bool` out.) -/
inductive FromTy where
  | boolTy : FromTy
  | intTy : IntTy → FromTy
deriving DecidableEq

/-- `pqxx::internal::cat2` (`util.hxx` lines 55–63): resizes a buffer to
`|x| + |y|` and copies `x` then `y` into it, i.e. string concatenation. -/
def cat2 (x y : String) : String := x ++ y

/-- `pqxx::check_cast<TO, FROM>(value, description)` (`util.hxx` lines
79–141), instantiated at integral types (the floating-point branch on
lines 134–138 is outside the integral instantiation).
* `FROM = bool`: return `static_cast<TO>(value)` at once (lines 88–89).
* both signed: throw `"Cast underflow: " + description` when
  `value < to_limits::lowest()` (lines 101–102);
* signed to unsigned: throw
  `"Casting negative value to unsigned type: " + description` when
  `value < 0` (lines 109–111);
* overflow check (lines 120–133): with `from_max`/`to_max` the type
  maxima cast to their unsigned widths, when `from_max > to_max` throw
  `"Cast overflow: " + description` if
  `static_cast<unsigned_from>(value) > to_max`;
* otherwise return `static_cast<TO>(value)` (line 140).
All C++ comparisons here are between non-negative values of unsigned
types, or between signed values that are exactly representable in the
common type, so each is the mathematical comparison written below. -/
def check_cast (FROM : FromTy) (TO : IntTy) (value : Int) (d : String) :
    Except String Int :=
  match FROM with
  | .boolTy => .ok (static_cast TO value)
  | .intTy f =>
    if f.signed ∧ TO.signed ∧ value < TO.min then
      .error (cat2 "Cast underflow: " d)
    else if f.signed ∧ ¬TO.signed ∧ value < 0 then
      .error (cat2 "Casting negative value to unsigned type: " d)
    else if f.max.toNat > TO.max.toNat ∧ toUnsigned f.bits value > TO.max.toNat then
      .error (cat2 "Cast overflow: " d)
    else
      .ok (static_cast TO value)

/-- Shorthand for the common integral types used as concrete instances. -/
def i16 : IntTy := ⟨true, 16⟩

def i32 : IntTy := ⟨true, 32⟩

def u16 : IntTy := ⟨false, 16⟩

def u32 : IntTy := ⟨false, 32⟩

example : check_cast (.intTy i32) i16 32767 "x" = .ok 32767 := by decide
example : check_cast (.intTy i32) i16 32768 "x" =
    .error "Cast overflow: x" := by decide
example : check_cast (.intTy i32) u32 (-1) "x" =
    .error "Casting negative value to unsigned type: x" := by decide
example : check_cast (.intTy i32) i16 (-32769) "x" =
    .error "Cast underflow: x" := by decide
example : check_cast (.intTy i32) i16 (-1) "x" =
    .error "Cast overflow: x" := by decide

/-- `pqxx::internal::size_esc_bin(binary_bytes)` (`util.hxx` lines
341–344): `2 + (2 * binary_bytes) + 1`, computed in `std::size_t` of
width `w`, i.e. modulo `2 ^ w`. -/
def size_esc_bin (w binary_bytes : Nat) : Nat :=
  (2 + 2 * binary_bytes + 1) % 2 ^ w

/-- `pqxx::internal::size_unesc_bin(escaped_bytes)` (`util.hxx` lines
350–353): `(escaped_bytes - 2) / 2`, computed in `std::size_t` of width
`w`.  Unsigned subtraction of 2 is addition of `2 ^ w - 2` modulo
`2 ^ w`; the division truncates. -/
def size_unesc_bin (w escaped_bytes : Nat) : Nat :=
  (escaped_bytes + (2 ^ w - 2)) % 2 ^ w / 2

example : size_esc_bin 64 5 = 13 := by decide
example : size_unesc_bin 64 13 = 5 := by decide
example : size_unesc_bin 64 0 = 2 ^ 63 - 1 := by decide

/-- The observable state of `pqxx::check_version` (`util.hxx` lines
165–179): whether the function-local `static auto const version_ok` has
been initialised, and how many times its initialiser
`internal::PQXX_VERSION_CHECK()` has run. -/
structure VersionState where
  version_ok_init : Bool
  eval_count : Nat
deriving DecidableEq

/-- One call to `pqxx::check_version()`: a local `static` variable is
initialised only on the first execution of its definition, so the
initialiser runs exactly when `version_ok_init` is still `false`; the
result is then discarded (`ignore_unused`) and the call returns. -/
def check_version (s : VersionState) : VersionState × Unit :=
  if s.version_ok_init then (s, ())
  else ({ version_ok_init := true, eval_count := s.eval_count + 1 }, ())

/-- The state at process start: the static is uninitialised and the
version check has never run. -/
def version_start : VersionState := ⟨false, 0⟩

/-- The state after `k` successive calls to `check_version`. -/
def run_check_version : Nat → VersionState
  | 0 => version_start
  | k + 1 => (check_version (run_check_version k)).1

example : (run_check_version 3).eval_count = 1 := by decide

/-! ### The `result` handle

`pqxx::result` (`result.hxx`) holds a `std::shared_ptr` to an
engine-owned result buffer (`m_data`), a `std::shared_ptr` to the query
string (`m_query`) and an encoding tag.  We embed the shared-pointer
heap explicitly: a `Store` maps buffer identifiers to their immutable
row counts and to their current reference counts, and records which
buffers have had their registered cleanup callback
(`internal::clear_result`, installed by `make_data_pointer`, lines
244–248) run. -/

/-- The shared-pointer heap backing `result` handles. -/
structure Store where
  rows : Nat → Nat
  refcount : Nat → Nat
  freed : List Nat

/-- A `pqxx::result` handle: `m_data` (buffer reference, `none` for the
null/empty state), `m_query` (query-text reference) and `m_encoding`. -/
structure ResultH where
  m_data : Option Nat
  m_query : Option Nat
  m_encoding : Nat
deriving DecidableEq

/-- A default-constructed `result` (`result.hxx` lines 82–86): its
`shared_ptr` holds a null buffer pointer, and no query. -/
def result_default (enc : Nat) : ResultH := ⟨none, none, enc⟩

/-- `std::shared_ptr` release semantics: dropping one reference to
buffer `i` decrements its count; when the count reaches zero, the
registered deleter — the cleanup callback `internal::clear_result` —
runs, recorded by adding `i` to `freed`. -/
def release_buffer (st : Store) (b : Option Nat) : Store :=
  match b with
  | none => st
  | some i =>
    if st.refcount i ≤ 1 then
      { st with
        refcount := fun j => if j = i then 0 else st.refcount j,
        freed := i :: st.freed }
    else
      { st with
        refcount := fun j => if j = i then st.refcount i - 1 else st.refcount j }

/-- `pqxx::result::clear()` (`result.hxx` lines 173–177):
`m_data.reset(); m_query = nullptr;` — release this handle's buffer
reference and null both references; `m_encoding` is untouched. -/
def result_clear (st : Store) (r : ResultH) : Store × ResultH :=
  (release_buffer st r.m_data, { r with m_data := none, m_query := none })

/-- Modelled from the spec: `result::size()` is declared in
`result.hxx` (line 135) but defined elsewhere; per the spec it is the
row count of the referenced buffer, and an empty `result` has zero
rows. -/
def result_size (st : Store) (r : ResultH) : Nat :=
  match r.m_data with
  | none => 0
  | some i => st.rows i

/-- `pqxx::result::capacity()` (`result.hxx` line 137):
`return size();`. -/
def result_capacity (st : Store) (r : ResultH) : Nat := result_size st r

/-! ### Column metadata lookups -/

/-- The error taxonomy relevant to column lookups (spec section 7). -/
inductive PqError where
  | lookupError : PqError
  | indexError : PqError
deriving DecidableEq

/-- Metadata of one column: name, type OID, source-table OID, and the
column's number within its source table. -/
structure ColMeta where
  name : String
  type_oid : Nat
  table_oid : Nat
  tab_col : Nat
deriving DecidableEq

/-- Modelled from the spec: `result::column_number(name)` is declared in
`result.hxx` (line 187) but defined elsewhere; per the spec it returns
the number of the column whose name is an exact, case-sensitive match,
and "fails with LookupError if no column has that exact name". -/
def column_number (cols : List ColMeta) (s : String) : Except PqError Nat :=
  match cols.findIdx? (fun c => c.name == s) with
  | some i => .ok i
  | none => .error .lookupError

/-- Modelled from the spec: `result::column_type(col_num)` is declared
in `result.hxx` (line 193) but defined elsewhere; per the spec it
returns the column's type OID and fails with IndexError when the column
number is out of range. -/
def column_type_num (cols : List ColMeta) (n : Nat) : Except PqError Nat :=
  match cols[n]? with
  | some c => .ok c.type_oid
  | none => .error .indexError

/-- Modelled from the spec: `result::column_table(col_num)`, declared in
`result.hxx` (line 202), defined elsewhere; returns the source-table
OID, failing with IndexError when out of range. -/
def column_table_num (cols : List ColMeta) (n : Nat) : Except PqError Nat :=
  match cols[n]? with
  | some c => .ok c.table_oid
  | none => .error .indexError

/-- Modelled from the spec: `result::table_column(col_num)`, declared in
`result.hxx` (line 211), defined elsewhere; returns the column's number
within its source table, failing with IndexError when out of range. -/
def table_column_num (cols : List ColMeta) (n : Nat) : Except PqError Nat :=
  match cols[n]? with
  | some c => .ok c.tab_col
  | none => .error .indexError

/-- `result::column_type(zview col_name)` (`result.hxx` lines 196–199):
`return column_type(column_number(col_name));` — a thrown exception from
`column_number` propagates, which is `Except` bind. -/
def column_type_name (cols : List ColMeta) (s : String) : Except PqError Nat :=
  (column_number cols s).bind (column_type_num cols)

/-- `result::column_table(zview col_name)` (`result.hxx` lines 205–208):
`return column_table(column_number(col_name));`. -/
def column_table_name (cols : List ColMeta) (s : String) : Except PqError Nat :=
  (column_number cols s).bind (column_table_num cols)

/-- `result::table_column(zview col_name)` (`result.hxx` lines 214–217):
`return table_column(column_number(col_name));`. -/
def table_column_name (cols : List ColMeta) (s : String) : Except PqError Nat :=
  (column_number cols s).bind (table_column_num cols)

example : column_type_name [⟨"a", 7, 8, 9⟩] "a" = .ok 7 := by decide
example : column_type_name [⟨"a", 7, 8, 9⟩] "A" = .error .lookupError := by
  decide

/-! ## Helper lemmas -/

/-- Every integral type's maximum is non-negative. -/
theorem IntTy.max_nonneg (t : IntTy) : 0 ≤ t.max := by
  unfold IntTy.max
  split
  · have := pow_pos (by norm_num : (0 : Int) < 2) (t.bits - 1)
    omega
  · have := pow_pos (by norm_num : (0 : Int) < 2) t.bits
    omega

/-- Every integral type's minimum is non-positive. -/
theorem IntTy.min_nonpos (t : IntTy) : t.min ≤ 0 := by
  unfold IntTy.min
  split
  · have := pow_pos (by norm_num : (0 : Int) < 2) (t.bits - 1)
    omega
  · omega

/-- The maximum of a `w`-bit type is below `2 ^ w`. -/
theorem IntTy.max_lt_two_pow (t : IntTy) : t.max < (2 : Int) ^ t.bits := by
  unfold IntTy.max
  split
  · have h1 : (2 : Int) ^ (t.bits - 1) ≤ 2 ^ t.bits :=
      pow_le_pow_right₀ (by norm_num) (by omega)
    omega
  · omega

/-- Casting a non-negative in-range value to its unsigned width is the
identity. -/
theorem toUnsigned_of_nonneg (w : Nat) (v : Int) (h0 : 0 ≤ v)
    (hlt : v < (2 : Int) ^ w) : (toUnsigned w v : Int) = v := by
  unfold toUnsigned
  rw [Int.emod_eq_of_lt h0 hlt, Int.toNat_of_nonneg h0]

/-- Casting a negative value of a `w`-bit signed type to its unsigned
width lands in the upper half `[2 ^ (w - 1), 2 ^ w)`. -/
theorem toUnsigned_neg_ge (w : Nat) (hw : 0 < w) (v : Int)
    (hmin : -((2 : Int) ^ (w - 1)) ≤ v) (hneg : v < 0) :
    2 ^ (w - 1) ≤ toUnsigned w v := by
  unfold toUnsigned
  have hpow : (2 : Int) ^ w = 2 * 2 ^ (w - 1) := by
    conv_lhs => rw [show w = (w - 1) + 1 by omega]
    rw [pow_succ]
    ring
  have hmod : v % ((2 : Int) ^ w) = v + 2 ^ w := by
    rw [← Int.add_emod_self]
    exact Int.emod_eq_of_lt (by omega) (by omega)
  have hcast : (((2 : Nat) ^ (w - 1) : Nat) : Int) = (2 : Int) ^ (w - 1) := by
    push_cast
    ring
  rw [hmod]
  omega

/-! ## Claims about `check_cast` -/

/-- Claim C1, the failing input.  The claim says every value `v` with
`minimum(TO) ≤ v ≤ maximum(TO)` passes `check_cast`, in particular
every in-range negative `v` when both types are signed and `FROM` is
wider.  The code disagrees: `-1` is in range for a 16-bit signed `TO`,
`static_cast` would return `-1`, yet the overflow check at `util.hxx`
line 130 first casts the value to the unsigned width of `FROM`, turning
`-1` into `2 ^ 32 - 1`, and throws `"Cast overflow"` — contradicting
the function's own documentation ("throw if it underflows/overflows",
line 75). -/
theorem check_cast_in_range_negative_bug :
    i16.mem (-1) ∧ i32.mem (-1) ∧ static_cast i16 (-1) = -1 ∧
    check_cast (.intTy i32) i16 (-1) "x" =
      .error (cat2 "Cast overflow: " "x") := by decide

/-- Claim C3: for signed `FROM`, unsigned `TO` and negative `value`,
`check_cast` throws the range error
`"Casting negative value to unsigned type: " + description`
(`util.hxx` lines 109–111), before any other check. -/
theorem check_cast_negative_to_unsigned (f TO : IntTy) (v : Int)
    (d : String) (hs : f.signed = true) (ht : TO.signed = false)
    (hv : v < 0) :
    check_cast (.intTy f) TO v d =
      .error (cat2 "Casting negative value to unsigned type: " d) := by
  have h1 : ¬(f.signed = true ∧ TO.signed = true ∧ v < TO.min) := by
    rintro ⟨-, h, -⟩
    rw [ht] at h
    exact Bool.false_ne_true h
  have h2 : f.signed = true ∧ ¬(TO.signed = true) ∧ v < 0 :=
    ⟨hs, by simp [ht], hv⟩
  simp only [check_cast]
  rw [if_neg h1, if_pos h2]

/-- Witness for C3 at a concrete instance: `int32 → uint16`, `v = -1`. -/
theorem check_cast_negative_to_unsigned_witness :
    i32.signed = true ∧ u16.signed = false ∧ (-1 : Int) < 0 ∧
    check_cast (.intTy i32) u16 (-1) "count" =
      .error (cat2 "Casting negative value to unsigned type: " "count") :=
  ⟨rfl, rfl, by decide,
    check_cast_negative_to_unsigned i32 u16 (-1) "count" rfl rfl (by decide)⟩

/-- Claim C8: when `FROM` is `bool`, `check_cast` returns
`static_cast<TO>(value)` immediately (`util.hxx` lines 88–89), so it
never fails: no underflow, negative-to-unsigned or overflow check is
reached and a `range_error` is impossible. -/
theorem check_cast_from_bool (TO : IntTy) (v : Int) (d : String) :
    check_cast .boolTy TO v d = .ok (static_cast TO v) := rfl

/-- Claim C2, counterexample: at `FROM = int32`, `TO = int16`,
`v = -2^31` the claim's conditions hold — `maximum(FROM) > maximum(TO)`
and `v` exceeds `maximum(TO)` in the unsigned-width comparison — so the
claim asserts the message `"Cast overflow: x"`; the code instead throws
with message `"Cast underflow: x"`, because the underflow check at
`util.hxx` lines 101–102 fires first. -/
theorem check_cast_c2_counterexample :
    i32.max.toNat > i16.max.toNat ∧
    toUnsigned i32.bits (-2147483648) > i16.max.toNat ∧
    check_cast (.intTy i32) i16 (-2147483648) "x" =
      .error (cat2 "Cast underflow: " "x") ∧
    cat2 "Cast underflow: " "x" ≠ cat2 "Cast overflow: " "x" := by decide

/-- Claim C2, amended: for integral `FROM` (not `bool`) and `TO` with
`maximum(FROM) > maximum(TO)` and `v` a value of `FROM`, `check_cast`
fails with a range error exactly when `v` exceeds `maximum(TO)` under
the unsigned-width magnitude comparison of `util.hxx` line 130.  The
message is `"Cast overflow: " + description` — also for in-range
negative `v` with signed `TO` — except when an earlier check fires
first: `"Cast underflow: " + description` for signed `TO` with
`v < minimum(TO)`, and
`"Casting negative value to unsigned type: " + description` for
unsigned `TO` with `v < 0`. -/
theorem check_cast_narrowing (f TO : IntTy) (v : Int) (d : String)
    (hfb : 0 < f.bits) (hmem : f.mem v)
    (hnarrow : TO.max.toNat < f.max.toNat) :
    ((∃ e, check_cast (.intTy f) TO v d = .error e) ↔
      TO.max.toNat < toUnsigned f.bits v) ∧
    (0 ≤ v → TO.max.toNat < toUnsigned f.bits v →
      check_cast (.intTy f) TO v d = .error (cat2 "Cast overflow: " d)) ∧
    (v < 0 → TO.signed = true → TO.min ≤ v →
      check_cast (.intTy f) TO v d = .error (cat2 "Cast overflow: " d)) ∧
    (v < 0 → TO.signed = true → v < TO.min →
      check_cast (.intTy f) TO v d = .error (cat2 "Cast underflow: " d)) ∧
    (v < 0 → TO.signed = false →
      check_cast (.intTy f) TO v d =
        .error (cat2 "Casting negative value to unsigned type: " d)) := by
  have heval : check_cast (.intTy f) TO v d =
      (if f.signed ∧ TO.signed ∧ v < TO.min then
        .error (cat2 "Cast underflow: " d)
      else if f.signed ∧ ¬TO.signed ∧ v < 0 then
        .error (cat2 "Casting negative value to unsigned type: " d)
      else if f.max.toNat > TO.max.toNat ∧
          toUnsigned f.bits v > TO.max.toNat then
        .error (cat2 "Cast overflow: " d)
      else .ok (static_cast TO v)) := rfl
  have hTOmax0 : 0 ≤ TO.max := IntTy.max_nonneg TO
  have hTOmin0 : TO.min ≤ 0 := IntTy.min_nonpos TO
  have hfmax_lt : f.max < (2 : Int) ^ f.bits := IntTy.max_lt_two_pow f
  have hfs_of_neg : v < 0 → f.signed = true := by
    intro hv
    cases hq : f.signed
    · have hmin : f.min = 0 := by
        unfold IntTy.min
        rw [hq]
        simp
      have := hmem.1
      omega
    · rfl
  have hexceed_of_neg : v < 0 → TO.max.toNat < toUnsigned f.bits v := by
    intro hv
    have hfs := hfs_of_neg hv
    have hminf : f.min = -((2 : Int) ^ (f.bits - 1)) := by
      unfold IntTy.min
      rw [hfs]
      simp
    have hge := toUnsigned_neg_ge f.bits hfb v (by
      have := hmem.1
      omega) hv
    have hfmax : f.max = (2 : Int) ^ (f.bits - 1) - 1 := by
      unfold IntTy.max
      rw [hfs]
      simp
    have hpos : (0 : Int) < 2 ^ (f.bits - 1) :=
      pow_pos (by norm_num) (f.bits - 1)
    have hcast : (((2 : Nat) ^ (f.bits - 1) : Nat) : Int) =
        (2 : Int) ^ (f.bits - 1) := by
      push_cast
      ring
    omega
  have hA : 0 ≤ v → TO.max.toNat < toUnsigned f.bits v →
      check_cast (.intTy f) TO v d = .error (cat2 "Cast overflow: " d) := by
    intro h0 hex
    rw [heval, if_neg (by rintro ⟨-, -, h⟩; omega),
      if_neg (by rintro ⟨-, -, h⟩; omega), if_pos ⟨hnarrow, hex⟩]
  have hB : v < 0 → TO.signed = true → TO.min ≤ v →
      check_cast (.intTy f) TO v d = .error (cat2 "Cast overflow: " d) := by
    intro hv hts hge
    rw [heval, if_neg (by rintro ⟨-, -, h⟩; omega),
      if_neg (by rintro ⟨-, hns, -⟩; exact hns hts),
      if_pos ⟨hnarrow, hexceed_of_neg hv⟩]
  have hC : v < 0 → TO.signed = true → v < TO.min →
      check_cast (.intTy f) TO v d = .error (cat2 "Cast underflow: " d) := by
    intro hv hts hlt
    rw [heval, if_pos ⟨hfs_of_neg hv, hts, hlt⟩]
  have hD : v < 0 → TO.signed = false →
      check_cast (.intTy f) TO v d =
        .error (cat2 "Casting negative value to unsigned type: " d) := by
    intro hv hts
    have hn1 : ¬(f.signed = true ∧ TO.signed = true ∧ v < TO.min) := by
      rintro ⟨-, h, -⟩
      rw [hts] at h
      exact Bool.false_ne_true h
    rw [heval, if_neg hn1, if_pos ⟨hfs_of_neg hv, by simp [hts], hv⟩]
  refine ⟨⟨?_, ?_⟩, hA, hB, hC, hD⟩
  · rintro ⟨e, he⟩
    rcases Int.lt_or_le v 0 with hv | hv
    · exact hexceed_of_neg hv
    · by_contra hnex
      rw [heval, if_neg (by rintro ⟨-, -, h⟩; omega),
        if_neg (by rintro ⟨-, -, h⟩; omega),
        if_neg (by rintro ⟨-, hx⟩; exact hnex hx)] at he
      exact Except.noConfusion he
  · intro hex
    rcases Int.lt_or_le v 0 with hv | hv
    · cases hts : TO.signed
      · exact ⟨_, hD hv hts⟩
      · rcases Int.lt_or_le v TO.min with hlt | hge
        · exact ⟨_, hC hv hts hlt⟩
        · exact ⟨_, hB hv hts hge⟩
    · exact ⟨_, hA hv hex⟩

/-- Witness for the amended C2 at `FROM = uint32`, `TO = uint16`,
`v = 70000`. -/
theorem check_cast_narrowing_witness :
    (0 < u32.bits ∧ u32.mem 70000 ∧ u16.max.toNat < u32.max.toNat) ∧
    (((∃ e, check_cast (.intTy u32) u16 70000 "x" = .error e) ↔
      u16.max.toNat < toUnsigned u32.bits 70000) ∧
    (0 ≤ (70000 : Int) → u16.max.toNat < toUnsigned u32.bits 70000 →
      check_cast (.intTy u32) u16 70000 "x" =
        .error (cat2 "Cast overflow: " "x")) ∧
    ((70000 : Int) < 0 → u16.signed = true → u16.min ≤ 70000 →
      check_cast (.intTy u32) u16 70000 "x" =
        .error (cat2 "Cast overflow: " "x")) ∧
    ((70000 : Int) < 0 → u16.signed = true → (70000 : Int) < u16.min →
      check_cast (.intTy u32) u16 70000 "x" =
        .error (cat2 "Cast underflow: " "x")) ∧
    ((70000 : Int) < 0 → u16.signed = false →
      check_cast (.intTy u32) u16 70000 "x" =
        .error (cat2 "Casting negative value to unsigned type: " "x"))) :=
  ⟨⟨by decide, by decide, by decide⟩,
    check_cast_narrowing u32 u16 70000 "x" (by decide) (by decide)
      (by decide)⟩

/-! ## Claims about the binary-codec size formulas -/

/-- Claim C4, counterexample: in `std::size_t` arithmetic of width 64
the round-trip `size_unesc_bin (size_esc_bin n) = n` fails for
`n = 2 ^ 63`, because `2 + 2 * n + 1` wraps around; the claim asserts
it for every representable `n`. -/
theorem size_roundtrip_counterexample :
    size_unesc_bin 64 (size_esc_bin 64 (2 ^ 63)) = 0 ∧
    (2 ^ 63 : Nat) ≠ 0 := by decide

/-- Claim C4, amended: for every word width `w > 0` and every
`n < 2 ^ (w - 1)` — i.e. whenever the encoded size `2 + 2n + 1` does
not wrap past `2 ^ w + 1` — the round-trip
`size_unesc_bin (size_esc_bin n) = n` holds. -/
theorem size_roundtrip (w n : Nat) (hw : 0 < w) (hn : n < 2 ^ (w - 1)) :
    size_unesc_bin w (size_esc_bin w n) = n := by
  have hkpos : 0 < 2 ^ (w - 1) := by positivity
  have hk : 2 ^ w = 2 * 2 ^ (w - 1) := by
    conv_lhs => rw [show w = (w - 1) + 1 by omega]
    rw [pow_succ]
    ring
  set k := 2 ^ (w - 1) with hkdef
  unfold size_esc_bin size_unesc_bin
  rw [hk]
  rcases Nat.lt_or_ge (n + 1) k with hlt | hge
  · rw [Nat.mod_eq_of_lt (by omega : 2 + 2 * n + 1 < 2 * k)]
    rw [show 2 + 2 * n + 1 + (2 * k - 2) = 2 * n + 1 + 2 * k by omega]
    rw [Nat.add_mod_right]
    rw [Nat.mod_eq_of_lt (by omega : 2 * n + 1 < 2 * k)]
    omega
  · have heq : n + 1 = k := by omega
    rw [show 2 + 2 * n + 1 = 1 + 2 * k by omega]
    rw [Nat.add_mod_right]
    rw [Nat.mod_eq_of_lt (by omega : 1 < 2 * k)]
    rw [show 1 + (2 * k - 2) = 2 * k - 1 by omega]
    rw [Nat.mod_eq_of_lt (by omega : 2 * k - 1 < 2 * k)]
    omega

/-- Witness for the amended C4 at `w = 64`, `n = 5`. -/
theorem size_roundtrip_witness :
    0 < 64 ∧ 5 < 2 ^ (64 - 1) ∧
    size_unesc_bin 64 (size_esc_bin 64 5) = 5 :=
  ⟨by decide, by decide, size_roundtrip 64 5 (by decide) (by decide)⟩

/-- Claim C10: `size_unesc_bin` is total and never reports an error; on
any representable input `e` it returns `((e - 2) mod 2 ^ w) / 2` — the
subtraction wrapping around like the `std::size_t` subtraction in
`util.hxx` line 352 — and in particular `size_unesc_bin 0` is the
enormous `(2 ^ w - 2) / 2` rather than a failure. -/
theorem size_unesc_bin_wraps (w e : Nat) (hw : 0 < w) (he : e < 2 ^ w) :
    size_unesc_bin w e = (((e : Int) - 2) % ((2 : Int) ^ w)).toNat / 2 ∧
    size_unesc_bin w 0 = (2 ^ w - 2) / 2 := by
  have h2 : 2 ≤ 2 ^ w := by
    calc 2 = 2 ^ 1 := rfl
    _ ≤ 2 ^ w := Nat.pow_le_pow_right (by decide) hw
  have hcast : (((2 : Nat) ^ w : Nat) : Int) = (2 : Int) ^ w := by
    push_cast
    ring
  constructor
  · unfold size_unesc_bin
    rcases Nat.lt_or_ge e 2 with hlt | hge
    · have hnat : (e + (2 ^ w - 2)) % 2 ^ w = e + (2 ^ w - 2) :=
        Nat.mod_eq_of_lt (by omega)
      have hint : ((e : Int) - 2) % ((2 : Int) ^ w) = (e : Int) - 2 + 2 ^ w := by
        rw [← Int.add_emod_self]
        exact Int.emod_eq_of_lt (by omega) (by omega)
      rw [hnat, hint]
      omega
    · have hnat : (e + (2 ^ w - 2)) % 2 ^ w = e - 2 := by
        rw [show e + (2 ^ w - 2) = e - 2 + 2 ^ w by omega]
        rw [Nat.add_mod_right]
        exact Nat.mod_eq_of_lt (by omega)
      have hint : ((e : Int) - 2) % ((2 : Int) ^ w) = (e : Int) - 2 :=
        Int.emod_eq_of_lt (by omega) (by omega)
      rw [hnat, hint]
      omega
  · unfold size_unesc_bin
    rw [Nat.zero_add, Nat.mod_eq_of_lt (by omega)]

/-- Witness for C10 at `w = 3`, `e = 5` (and the `e = 0` corner). -/
theorem size_unesc_bin_wraps_witness :
    0 < 3 ∧ 5 < 2 ^ 3 ∧
    (size_unesc_bin 3 5 = (((5 : Nat) : Int) - 2).toNat / 2 ∧
      size_unesc_bin 3 0 = (2 ^ 3 - 2) / 2) := by
  refine ⟨by decide, by decide, ?_, ?_⟩
  · have h := (size_unesc_bin_wraps 3 5 (by decide) (by decide)).1
    simpa using h
  · exact (size_unesc_bin_wraps 3 5 (by decide) (by decide)).2

/-! ## Claims about `result` and `check_version` -/

/-- Claim C9: `result::capacity()` returns `size()` (`result.hxx` line
137) for every handle, including a default-constructed and a cleared
one, on which both are zero; it is a pure read with no side effects,
reflected here as a function of the handle and store alone. -/
theorem result_capacity_eq_size (st st2 : Store) (R C : ResultH)
    (enc : Nat) :
    result_capacity st R = result_size st R ∧
    result_capacity st2 (result_default enc) = 0 ∧
    result_capacity st2 (result_clear st C).2 = 0 :=
  ⟨rfl, rfl, rfl⟩

/-- Claim C7: `check_version` is idempotent and non-failing: across any
`k ≥ 1` calls the initialiser of the local `static` variable — the
version-check expression `PQXX_VERSION_CHECK()` — runs exactly once, on
the first call, and once initialised a further call leaves the state
unchanged (`util.hxx` lines 165–179). -/
theorem check_version_once (k : Nat) (hk : 1 ≤ k) :
    (run_check_version k).eval_count = 1 ∧
    (run_check_version k).version_ok_init = true ∧
    run_check_version (k + 1) = run_check_version k := by
  induction k with
  | zero => exact absurd hk (by decide)
  | succ n ih =>
    rcases Nat.eq_zero_or_pos n with h0 | hpos
    · subst h0
      exact ⟨by decide, by decide, by decide⟩
    · obtain ⟨h1, h2, h3⟩ := ih hpos
      refine ⟨by rw [h3]; exact h1, by rw [h3]; exact h2, ?_⟩
      show (check_version (run_check_version (n + 1))).1 =
        run_check_version (n + 1)
      rw [h3]
      show (check_version (run_check_version n)).1 = run_check_version n
      unfold check_version
      rw [if_pos h2]

/-- Claim C5: clearing a copy `C` that shares `R`'s buffer nulls only
`C`'s own buffer and query references (`result.hxx` lines 173–177),
leaving `C` empty and its encoding tag in place; `R` and the buffer
contents are untouched, so `R.size()` is unchanged; with `R` still
holding a reference the cleanup callback does not run, and — last
conjunct — a handle whose reference is the final one does trigger the
callback on clear. -/
theorem result_clear_shared (st : Store) (R C : ResultH) (i : Nat)
    (hC : C.m_data = some i) (hR : R.m_data = some i)
    (hrc : 2 ≤ st.refcount i) (hfr : i ∉ st.freed) :
    (result_clear st C).2.m_data = none ∧
    (result_clear st C).2.m_query = none ∧
    (result_clear st C).2.m_encoding = C.m_encoding ∧
    result_size (result_clear st C).1 R = result_size st R ∧
    (result_clear st C).1.rows = st.rows ∧
    (result_clear st C).1.refcount i = st.refcount i - 1 ∧
    i ∉ (result_clear st C).1.freed ∧
    (∀ (st2 : Store) (r : ResultH), r.m_data = some i →
      st2.refcount i = 1 → i ∈ (result_clear st2 r).1.freed) := by
  have hst : result_clear st C =
      ({ st with refcount :=
          fun j => if j = i then st.refcount i - 1 else st.refcount j },
        { C with m_data := none, m_query := none }) := by
    simp only [result_clear, release_buffer, hC]
    rw [if_neg (by omega : ¬st.refcount i ≤ 1)]
  rw [hst]
  refine ⟨rfl, rfl, rfl, ?_, rfl, by simp, hfr, ?_⟩
  · simp only [result_size, hR]
  · intro st2 r h1 h2
    simp only [result_clear, release_buffer, h1]
    rw [if_pos (by omega : st2.refcount i ≤ 1)]
    exact List.mem_cons_self i st2.freed

/-- The concrete store for the C5 witness: one buffer (number 0) of
four rows, referenced twice, never freed. -/
def wStore : Store := ⟨fun _ => 4, fun _ => 2, []⟩

/-- The concrete handle for the C5 witness: references buffer 0. -/
def wRes : ResultH := ⟨some 0, some 0, 7⟩

/-- Witness for C5: two handles (`wRes` used for both `R` and `C`)
sharing buffer 0 of `wStore`. -/
theorem result_clear_shared_witness :
    (wRes.m_data = some 0 ∧ 2 ≤ wStore.refcount 0 ∧ 0 ∉ wStore.freed) ∧
    ((result_clear wStore wRes).2.m_data = none ∧
      (result_clear wStore wRes).2.m_query = none ∧
      (result_clear wStore wRes).2.m_encoding = wRes.m_encoding ∧
      result_size (result_clear wStore wRes).1 wRes =
        result_size wStore wRes ∧
      (result_clear wStore wRes).1.rows = wStore.rows ∧
      (result_clear wStore wRes).1.refcount 0 = wStore.refcount 0 - 1 ∧
      0 ∉ (result_clear wStore wRes).1.freed ∧
      (∀ (st2 : Store) (r : ResultH), r.m_data = some 0 →
        st2.refcount 0 = 1 → 0 ∈ (result_clear st2 r).1.freed)) :=
  ⟨⟨rfl, by decide, by decide⟩,
    result_clear_shared wStore wRes wRes 0 rfl rfl (by decide) (by decide)⟩

/-- Claim C6: the by-name metadata lookups of `result.hxx` lines
196–217 are exactly the by-number lookups composed with
`column_number`, with a thrown exception propagating; hence when no
column bears the (exact, case-sensitive) name `s`, all three by-name
lookups fail with the `LookupError` that `column_number` raises — and,
being pure reads, they change nothing. -/
theorem column_lookup_by_name (cols : List ColMeta) (s : String)
    (habs : ∀ c ∈ cols, c.name ≠ s) :
    column_number cols s = .error .lookupError ∧
    column_type_name cols s =
      (column_number cols s).bind (column_type_num cols) ∧
    column_table_name cols s =
      (column_number cols s).bind (column_table_num cols) ∧
    table_column_name cols s =
      (column_number cols s).bind (table_column_num cols) ∧
    column_type_name cols s = .error .lookupError ∧
    column_table_name cols s = .error .lookupError ∧
    table_column_name cols s = .error .lookupError := by
  have hidx : cols.findIdx? (fun c => c.name == s) = none := by
    rw [List.findIdx?_eq_none_iff]
    intro c hc
    simpa using habs c hc
  have hnum : column_number cols s = .error .lookupError := by
    unfold column_number
    rw [hidx]
  refine ⟨hnum, rfl, rfl, rfl, ?_, ?_, ?_⟩
  · show (column_number cols s).bind (column_type_num cols) = _
    rw [hnum]
    rfl
  · show (column_number cols s).bind (column_table_num cols) = _
    rw [hnum]
    rfl
  · show (column_number cols s).bind (table_column_num cols) = _
    rw [hnum]
    rfl

/-- Witness for C6: a one-column result whose column is named `"a"`,
looked up under the absent name `"b"`. -/
theorem column_lookup_by_name_witness :
    (∀ c ∈ [(⟨"a", 7, 8, 9⟩ : ColMeta)], c.name ≠ "b") ∧
    (column_number [(⟨"a", 7, 8, 9⟩ : ColMeta)] "b" = .error .lookupError ∧
      column_type_name [(⟨"a", 7, 8, 9⟩ : ColMeta)] "b" =
        (column_number [(⟨"a", 7, 8, 9⟩ : ColMeta)] "b").bind
          (column_type_num [(⟨"a", 7, 8, 9⟩ : ColMeta)]) ∧
      column_table_name [(⟨"a", 7, 8, 9⟩ : ColMeta)] "b" =
        (column_number [(⟨"a", 7, 8, 9⟩ : ColMeta)] "b").bind
          (column_table_num [(⟨"a", 7, 8, 9⟩ : ColMeta)]) ∧
      table_column_name [(⟨"a", 7, 8, 9⟩ : ColMeta)] "b" =
        (column_number [(⟨"a", 7, 8, 9⟩ : ColMeta)] "b").bind
          (table_column_num [(⟨"a", 7, 8, 9⟩ : ColMeta)]) ∧
      column_type_name [(⟨"a", 7, 8, 9⟩ : ColMeta)] "b" =
        .error .lookupError ∧
      column_table_name [(⟨"a", 7, 8, 9⟩ : ColMeta)] "b" =
        .error .lookupError ∧
      table_column_name [(⟨"a", 7, 8, 9⟩ : ColMeta)] "b" =
        .error .lookupError) :=
  ⟨by decide, column_lookup_by_name [(⟨"a", 7, 8, 9⟩ : ColMeta)] "b"
    (by decide)⟩

/-- Witness for C7 at `k = 5`. -/
theorem check_version_once_witness :
    1 ≤ 5 ∧
    ((run_check_version 5).eval_count = 1 ∧
      (run_check_version 5).version_ok_init = true ∧
      run_check_version (5 + 1) = run_check_version 5) :=
  ⟨by decide, check_version_once 5 (by decide)⟩

end Pqxx
